import Mathlib

/-!
Verification of the cache/concurrency control subsystem of the spatial plot
server (files app/cache.py, app/render.py, app/config.py).

The development shallowly embeds the pure decision logic of the source:

* the prune engine of app/cache.py (prune_cache_if_needed, lines 66-158),
  where filesystem scans are represented by explicit snapshot lists of file
  entries, the global prune lock by a Boolean availability flag, and the
  per-file unlink outcome by an oracle (success, file already gone, or a
  swallowed exception such as permission denied or file busy);
* the per-artifact ensure workflows of app/render.py (ensure_plot_png lines
  222-261, ensure_export_pdf lines 264-301, ensure_export_tiff lines
  304-349), with the sequence of lock and filesystem effects made explicit
  as an event trace;
* the key sanitization _safe_gene (render.py lines 37-46) and the default
  library selection _pick_default_library (render.py lines 49-66);
* the lock release logic (_FileLock.release, render.py lines 105-122, and
  _release_prune_lock, cache.py lines 56-63);
* an interleaving transition system for N execution contexts running the
  shared ensure skeleton (fast existence check, O_EXCL lock acquisition with
  a poll budget, recheck under the lock, render, release) used to settle the
  mutual-exclusion claims.

Machine-level notes: byte sizes are Nat (they are nonnegative in the source
and Python integers are unbounded); the running total of the deletion loop
is Int because the source decrements a Python int; modification times are
ordered abstractly as Nat (only their order matters to the source).
-/

namespace App

/-! ## Data model of the cache directories (app/cache.py) -/

/-- A file entry as scanned by prune_cache_if_needed (cache.py lines
119-126): the tuple (st_mtime, st_size, path). Paths are abstract ids. -/
structure Ent where
  mtime : Nat
  size : Nat
  path : Nat
deriving DecidableEq, Repr

/-- A snapshot of the files found under the cache directories by one
recursive walk (_iter_files + stat, cache.py lines 23-40). -/
abbrev FS := List Ent

/-- Total byte size of a snapshot (_total_size_bytes, cache.py lines 32-40;
files that vanished mid-scan are simply absent from the snapshot). -/
def totalSize (fs : FS) : Nat := (fs.map Ent.size).sum

/-- Byte sum of a list of entries. -/
def sumSizes (l : List Ent) : Nat := (l.map Ent.size).sum

instance : DecidableRel (fun a b : Ent => a.mtime ≤ b.mtime) :=
  fun a b => Nat.decLe a.mtime b.mtime

instance : IsTotal Ent (fun a b : Ent => a.mtime ≤ b.mtime) :=
  ⟨fun a b => Nat.le_total a.mtime b.mtime⟩

instance : IsTrans Ent (fun a b : Ent => a.mtime ≤ b.mtime) :=
  ⟨fun _ _ _ hab hbc => Nat.le_trans hab hbc⟩

/-- Oldest-first stable sort of the scanned entries
(entries.sort(key=lambda x: x[0]), cache.py line 129). -/
def sortByMtime (l : List Ent) : List Ent :=
  List.insertionSort (fun a b : Ent => a.mtime ≤ b.mtime) l

/-- Outcome of one unlink attempt in the deletion loop (cache.py lines
136-146). ok: the file was removed. gone: the file had already vanished, so
unlink(missing_ok=True) returns normally without freeing anything. fail: the
unlink raised (permission denied, file busy); the except clause skips it. -/
inductive DelOutcome where
  | ok
  | gone
  | fail
deriving DecidableEq, BEq, Repr

/-- All unlink attempts succeed. -/
def okBeh : Nat → DelOutcome := fun _ => .ok

/-- Accumulated outcome of the deletion loop: deleted_files, deleted_bytes,
the running total current, and the entries whose unlink returned normally,
in deletion order. -/
structure LoopOut where
  df : Nat
  db : Nat
  cur : Int
  removed : List Ent
deriving DecidableEq, Repr

/-- The deletion loop of prune_cache_if_needed (cache.py lines 136-146):
stop as soon as current ≤ max_bytes, otherwise unlink the next candidate;
a raising unlink is skipped (not counted, total not decremented), any
normally returning unlink (including on an already-gone file, because of
missing_ok=True) increments deleted_files and deleted_bytes and decrements
the running total. -/
def pruneLoop (maxBytes : Int) (beh : Nat → DelOutcome) :
    List Ent → Int → LoopOut
  | [], cur => ⟨0, 0, cur, []⟩
  | e :: rest, cur =>
    if cur ≤ maxBytes then ⟨0, 0, cur, []⟩
    else
      match beh e.path with
      | .fail => pruneLoop maxBytes beh rest cur
      | _ =>
        let out := pruneLoop maxBytes beh rest (cur - e.size)
        ⟨out.df + 1, out.db + e.size, out.cur, e :: out.removed⟩

/-- Number of candidates the loop consumes before the running total first
reaches max_bytes (the length of the deleted oldest-first segment when every
unlink succeeds). -/
def needCount (maxBytes : Int) : List Ent → Int → Nat
  | [], _ => 0
  | e :: rest, cur =>
    if cur ≤ maxBytes then 0 else needCount maxBytes rest (cur - e.size) + 1

/-- The deletable candidate set (cache.py lines 131-134): when keep_newest
is positive and there are strictly more entries than keep_newest, the slice
entries[:-keep_newest]; otherwise all entries. -/
def deletableOf (keepNewest : Nat) (entries : List Ent) : List Ent :=
  if 0 < keepNewest ∧ keepNewest < entries.length then
    entries.take (entries.length - keepNewest)
  else entries

/-- CachePruneResult (cache.py lines 13-20). elapsed_ms is wall-clock
observability only and is not modelled. -/
structure CachePruneResult where
  before_bytes : Nat
  after_bytes : Nat
  deleted_files : Nat
  deleted_bytes : Nat
  skipped_due_to_lock : Bool
deriving DecidableEq, Repr

/-- Result of one prune call together with the observable lock behaviour:
the entries it unlinked, how many times it tried to take the global prune
lock, and whether it acquired and released it. -/
structure PruneOutcome where
  res : CachePruneResult
  removed : List Ent
  lockAttempts : Nat
  lockAcquired : Bool
  lockReleased : Bool
deriving DecidableEq, Repr

/-- prune_cache_if_needed (cache.py lines 66-158). fs0 is the snapshot seen
by the initial size check (line 90), fs1 the snapshot seen under the lock
(lines 100, 115 and 121; the source walks the directories afresh each time,
and concurrent mutation between the walks is represented by the two
snapshots differing). lockFree tells whether the single non-blocking
O_CREAT|O_EXCL attempt on the global prune lock succeeds (cache.py lines
44-53, 97). beh gives the unlink outcome per path. The final after_bytes
rescan (line 148) no longer sees files that were unlinked nor files that
vanished on their own (DelOutcome.gone). -/
def prune_cache_if_needed (maxBytes : Nat) (fs0 fs1 : FS) (keepNewest : Nat)
    (lockFree : Bool) (beh : Nat → DelOutcome) : PruneOutcome :=
  let before := totalSize fs0
  if before ≤ maxBytes then
    ⟨⟨before, before, 0, 0, false⟩, [], 0, false, false⟩
  else if lockFree = false then
    ⟨⟨before, totalSize fs1, 0, 0, true⟩, [], 1, false, false⟩
  else
    let current := totalSize fs1
    if current ≤ maxBytes then
      ⟨⟨before, current, 0, 0, false⟩, [], 1, true, true⟩
    else
      let deletable := deletableOf keepNewest (sortByMtime fs1)
      let out := pruneLoop (maxBytes : Int) beh deletable (current : Int)
      let after := totalSize (fs1.filter (fun e =>
        !((out.removed.map Ent.path).contains e.path) &&
        !(beh e.path == DelOutcome.gone)))
      ⟨⟨before, after, out.df, out.db, false⟩, out.removed, 1, true, true⟩

/-! ## Data model of the ensure workflows (app/render.py) -/

instance exceptDecEq {ε α : Type} [DecidableEq ε] [DecidableEq α] :
    DecidableEq (Except ε α) := fun a b =>
  match a, b with
  | .error x, .error y =>
    if h : x = y then isTrue (congrArg Except.error h)
    else isFalse (fun hc => h (Except.error.inj hc))
  | .ok x, .ok y =>
    if h : x = y then isTrue (congrArg Except.ok h)
    else isFalse (fun hc => h (Except.ok.inj hc))
  | .error _, .ok _ => isFalse (fun hc => Except.noConfusion hc)
  | .ok _, .error _ => isFalse (fun hc => Except.noConfusion hc)

/-- str.strip() with no argument as used by _safe_gene and
_pick_default_library: remove leading and trailing whitespace. Embedded as
a computable list traversal (Char.isWhitespace covers the space, tab,
carriage-return and newline characters that gene identifiers could
realistically carry). -/
def pyStrip (s : String) : String :=
  ⟨((s.data.dropWhile Char.isWhitespace).reverse.dropWhile
      Char.isWhitespace).reverse⟩

/-- RenderError (render.py lines 27-31): a typed failure with a code, a
human message and an optional detail. Detail payloads that embed runtime
filesystem paths are abbreviated to stable tags. -/
structure RenderError where
  code : String
  message : String
  detail : Option String := none
deriving DecidableEq, Repr

/-- The character mapping inside _safe_gene (render.py line 46): keep
alphanumeric characters and those in "._-", replace everything else with
an underscore. Char.isAlphanum plays the role of str.isalnum (the source
is only ever fed ASCII gene identifiers). -/
def sanitizeChar (ch : Char) : Char :=
  if ch.isAlphanum || ['.', '_', '-'].contains ch then ch else '_'

/-- The function _safe_gene (render.py lines 37-46): strip the raw gene, reject an
empty result with BAD_INPUT, otherwise map each character through
sanitizeChar. -/
def safe_gene (gene : String) : Except RenderError String :=
  let g := pyStrip gene
  if g = "" then Except.error ⟨"BAD_INPUT", "gene 不能为空。", none⟩
  else Except.ok ⟨g.data.map sanitizeChar⟩

/-- ALLOWED_EXPORT_DPI (config.py line 82): the fixed allow-set for the
tiff export dpi. -/
def ALLOWED_EXPORT_DPI : List Int := [150, 300, 600, 1200]

/-- Output path of the png artifact (render.py line 239):
cfg.PNG_DIR / f-string gene.png; the directory root is fixed to its
default for this model since it never varies within a process. -/
def pngOutPath (g : String) : String := "figures/png/" ++ g ++ ".png"

/-- Per-artifact lock path of the png workflow (render.py line 240). -/
def plotPngLockPath (g : String) : String :=
  "figures/locks/" ++ g ++ ".plot_png.lock"

/-- Output path of the tiff artifact (render.py line 328). -/
def tiffOutPath (g : String) (dpi : Int) : String :=
  "figures/tiff/" ++ g ++ "_" ++ toString dpi ++ ".tiff"

/-- Per-artifact lock path of the tiff workflow (render.py line 329). -/
def tiffLockPath (g : String) (dpi : Int) : String :=
  "figures/locks/" ++ g ++ ".export_tiff_" ++ toString dpi ++ ".lock"

/-- Observable effects of one ensure call, in program order: a scan of the
data directory by the default-library fallback, an artifact existence
check, acquisition and release of the per-artifact lock, the prune call,
and the invocation of the external render (_draw). -/
inductive Ev where
  | fsDataDirScan
  | fsArtifactCheck
  | lockAcquire
  | lockRelease
  | pruneCall
  | renderCall
deriving DecidableEq, Repr

/-- The process environment and filesystem state an ensure call runs in:
the DEFAULT_LIB environment variable, whether DATA_DIR exists and the
sorted stems of its .h5ad files (render.py lines 55-66), whether the
artifact file already exists at its deterministic output path, whether the
per-artifact lock can be acquired within the timeout, and the outcome of
the external draw call (none = a file is produced at the output path). -/
structure EnvModel where
  defaultLib : Option String
  dataDirExists : Bool
  h5adStems : List String
  artifactExists : Bool
  lockFree : Bool
  drawError : Option RenderError
deriving DecidableEq, Repr

/-- The disk-scanning fallback of _pick_default_library (render.py lines
59-66): touching the filesystem, it fails when DATA_DIR is missing or
holds no .h5ad file, and otherwise picks the stem that sorts first. -/
def pickFromDataDir (env : EnvModel) : Except RenderError String × List Ev :=
  if env.dataDirExists = false then
    (Except.error ⟨"FILE_NOT_FOUND", "DATA_DIR 不存在。", some "DATA_DIR"⟩,
     [.fsDataDirScan])
  else
    match env.h5adStems with
    | [] => (Except.error ⟨"FILE_NOT_FOUND", "DATA_DIR 下没有任何 .h5ad 文件。",
              some "DATA_DIR"⟩, [.fsDataDirScan])
    | s :: _ => (Except.ok s, [.fsDataDirScan])

/-- The function _pick_default_library (render.py lines 49-66): a nonblank DEFAULT_LIB
environment variable wins without touching the filesystem; otherwise the
data directory is scanned. -/
def pick_default_library (env : EnvModel) :
    Except RenderError String × List Ev :=
  match env.defaultLib with
  | some v =>
    if pyStrip v = "" then pickFromDataDir env
    else (Except.ok (pyStrip v), [])
  | none => pickFromDataDir env

/-- The expression library or _pick_default_library() (render.py lines
237, 278, 319): an explicitly passed non-empty library string is used as
is; None or the empty string (both falsy) trigger the default lookup. -/
def resolveLibrary (library : Option String) (env : EnvModel) :
    Except RenderError String × List Ev :=
  match library with
  | some l => if l = "" then pick_default_library env else (Except.ok l, [])
  | none => pick_default_library env

/-- RenderResult (render.py lines 20-24). -/
structure RenderResultM where
  gene : String
  out_path : String
  cache_hit : Bool
deriving DecidableEq, Repr

/-- ensure_plot_png (render.py lines 222-261), sequentially: sanitize the
gene, resolve the library, fast existence check, then under the
per-artifact lock recheck, prune, draw. The layer, basis and dpi
parameters only feed the opaque draw call and are omitted. The trace
records the effects in program order. -/
def ensure_plot_png (gene : String) (library : Option String)
    (env : EnvModel) : Except RenderError RenderResultM × List Ev :=
  match safe_gene gene with
  | .error e => (.error e, [])
  | .ok g =>
    match resolveLibrary library env with
    | (.error e, evs) => (.error e, evs)
    | (.ok _, evs) =>
      if env.artifactExists then
        (.ok ⟨g, pngOutPath g, true⟩, evs ++ [.fsArtifactCheck])
      else if env.lockFree then
        if env.artifactExists then
          (.ok ⟨g, pngOutPath g, true⟩,
           evs ++ [.fsArtifactCheck, .lockAcquire, .fsArtifactCheck,
                   .lockRelease])
        else
          match env.drawError with
          | some e =>
            (.error e,
             evs ++ [.fsArtifactCheck, .lockAcquire, .fsArtifactCheck,
                     .pruneCall, .renderCall, .lockRelease])
          | none =>
            (.ok ⟨g, pngOutPath g, false⟩,
             evs ++ [.fsArtifactCheck, .lockAcquire, .fsArtifactCheck,
                     .pruneCall, .renderCall, .lockRelease])
      else
        (.error ⟨"LOCK_TIMEOUT", "当前任务排队超时（可能同一张图正在被生成）。",
           some (plotPngLockPath g)⟩, evs ++ [.fsArtifactCheck])

/-- ensure_export_tiff (render.py lines 304-349): same skeleton as
ensure_plot_png, except that after library resolution the dpi is checked
against ALLOWED_EXPORT_DPI and rejected with BAD_INPUT (render.py lines
321-326). -/
def ensure_export_tiff (gene : String) (dpi : Int) (library : Option String)
    (env : EnvModel) : Except RenderError RenderResultM × List Ev :=
  match safe_gene gene with
  | .error e => (.error e, [])
  | .ok g =>
    match resolveLibrary library env with
    | (.error e, evs) => (.error e, evs)
    | (.ok _, evs) =>
      if dpi ∈ ALLOWED_EXPORT_DPI then
        if env.artifactExists then
          (.ok ⟨g, tiffOutPath g dpi, true⟩, evs ++ [.fsArtifactCheck])
        else if env.lockFree then
          if env.artifactExists then
            (.ok ⟨g, tiffOutPath g dpi, true⟩,
             evs ++ [.fsArtifactCheck, .lockAcquire, .fsArtifactCheck,
                     .lockRelease])
          else
            match env.drawError with
            | some e =>
              (.error e,
               evs ++ [.fsArtifactCheck, .lockAcquire, .fsArtifactCheck,
                       .pruneCall, .renderCall, .lockRelease])
            | none =>
              (.ok ⟨g, tiffOutPath g dpi, false⟩,
               evs ++ [.fsArtifactCheck, .lockAcquire, .fsArtifactCheck,
                       .pruneCall, .renderCall, .lockRelease])
        else
          (.error ⟨"LOCK_TIMEOUT", "当前任务排队超时（可能同一张图正在被生成）。",
             some (tiffLockPath g dpi)⟩, evs ++ [.fsArtifactCheck])
      else
        (.error ⟨"BAD_INPUT", "不支持的 dpi 选项。",
           some ("got=" ++ toString dpi)⟩, evs)

/-! ## Lock release (render.py _FileLock.release, cache.py
_release_prune_lock) -/

/-- The state a lock handle acts on: the file descriptor held by the
handle (none once closed) and whether the lock file is present on disk. -/
structure FileLockSt where
  fd : Option Nat
  fileExists : Bool
deriving DecidableEq, Repr

/-- Path.unlink(missing_ok=True) as used in both release routines: an
absent file is success (missing_ok suppresses FileNotFoundError); a
present file is removed unless the unlink itself raises (permission), in
which case the file stays. Returns (file still present, raised). -/
def unlinkMissingOk (unlinkRaises : Bool) (present : Bool) : Bool × Bool :=
  if present = false then (false, false)
  else if unlinkRaises then (true, true)
  else (false, false)

/-- The method _FileLock.release (render.py lines 105-122): close the descriptor if
one is held, clear it (the finally), then attempt to delete the lock file,
swallowing every unlink error. The function returns normally in all
cases. -/
def fileLockRelease (unlinkRaises : Bool) (s : FileLockSt) : FileLockSt :=
  { fd := none, fileExists := (unlinkMissingOk unlinkRaises s.fileExists).1 }

/-- The function _release_prune_lock (cache.py lines 56-63): close the fd, then attempt
to delete the global prune lock file, swallowing every unlink error. -/
def releasePruneLock (unlinkRaises : Bool) (s : FileLockSt) : FileLockSt :=
  { fd := none, fileExists := (unlinkMissingOk unlinkRaises s.fileExists).1 }

/-! ## Interleaved ensure calls (the _FileLock skeleton shared by
ensure_plot_png, ensure_export_pdf and ensure_export_tiff) -/

/-- Result of one ensure call in the concurrent model: a cache hit, a
fresh render, a lock timeout (render.py lines 96-103), or a render
failure surfaced to the caller. -/
inductive Res where
  | hit
  | fresh
  | timeout
  | err
deriving DecidableEq, Repr

/-- Program counter of one execution context running the ensure skeleton
for one fixed artifact identity: the lock-free fast existence check
(render.py line 242), the O_EXCL acquisition poll loop with its remaining
retry budget (lines 88-103), the under-lock recheck (line 246), the
in-flight external render (lines 250-260), and completion. -/
inductive PC where
  | start
  | waiting (budget : Nat)
  | recheck
  | renderBusy
  | done (r : Res)
deriving DecidableEq, Repr

/-- Shared state of n concurrent ensure calls for one artifact identity:
whether the artifact file exists, whether the per-identity lock file
exists (its existence IS the lock), how many times the external render has
been invoked, and the program counter of each context. -/
structure SysState (n : Nat) where
  artifact : Bool
  lock : Bool
  renders : Nat
  pcs : Fin n → PC

/-- One atomic step of context m.1 (with m.2 the success of its render, if
it is the one rendering). start: fast existence check — hit or enter the
poll loop with budget B i. waiting: one O_CREAT|O_EXCL attempt — acquire
the lock, or give up with LOCK_TIMEOUT when the budget is exhausted, or
poll again. recheck: under the lock — release and report a hit, or invoke
the external render. renderBusy: the render finishes — on success the
artifact file appears; either way the with-block releases the lock. -/
def step {n : Nat} (B : Fin n → Nat) (s : SysState n) (m : Fin n × Bool) :
    SysState n :=
  match s.pcs m.1 with
  | .start =>
    if s.artifact then
      { s with pcs := Function.update s.pcs m.1 (.done .hit) }
    else
      { s with pcs := Function.update s.pcs m.1 (.waiting (B m.1)) }
  | .waiting b =>
    if s.lock = false then
      { s with lock := true, pcs := Function.update s.pcs m.1 .recheck }
    else if b = 0 then
      { s with pcs := Function.update s.pcs m.1 (.done .timeout) }
    else
      { s with pcs := Function.update s.pcs m.1 (.waiting (b - 1)) }
  | .recheck =>
    if s.artifact then
      { s with lock := false, pcs := Function.update s.pcs m.1 (.done .hit) }
    else
      { s with renders := s.renders + 1,
               pcs := Function.update s.pcs m.1 .renderBusy }
  | .renderBusy =>
    if m.2 then
      { s with artifact := true, lock := false,
               pcs := Function.update s.pcs m.1 (.done .fresh) }
    else
      { s with lock := false, pcs := Function.update s.pcs m.1 (.done .err) }
  | .done _ => s

/-- Initial state: no artifact, no lock file, no renders, every context
about to make its fast existence check. -/
def initState (n : Nat) : SysState n :=
  ⟨false, false, 0, fun _ => .start⟩

/-- Run a schedule: an arbitrary interleaving of context steps. -/
def exec {n : Nat} (B : Fin n → Nat) (s : SysState n)
    (sched : List (Fin n × Bool)) : SysState n :=
  sched.foldl (step B) s

/-- A schedule on which every render that runs succeeds. -/
def AllOk {n : Nat} (sched : List (Fin n × Bool)) : Prop :=
  ∀ p ∈ sched, p.2 = true

instance {n : Nat} (sched : List (Fin n × Bool)) : Decidable (AllOk sched) :=
  List.decidableBAll _ sched

/-- A context holds the per-identity lock exactly while it sits between a
successful O_EXCL acquisition and the release performed by the with-block:
at the recheck or while rendering. -/
def holds (pc : PC) : Prop := pc = PC.recheck ∨ pc = PC.renderBusy

/-- Safety invariant maintained by every schedule: a holder implies the
lock file exists, at most one context holds the lock, and while a render
is in flight the artifact file does not yet exist. -/
def InvA {n : Nat} (s : SysState n) : Prop :=
  (∀ i, holds (s.pcs i) → s.lock = true)
  ∧ (∀ i j, holds (s.pcs i) → holds (s.pcs j) → i = j)
  ∧ (∀ i, s.pcs i = PC.renderBusy → s.artifact = false)

/-- Additional invariant maintained by schedules on which every render
succeeds: the render was invoked at most once, an invoked render is either
still in flight or has produced the artifact, a finished fresh render
implies the artifact exists, no context ends in the render-failure result,
and at most one context produced the artifact. -/
def InvBx {n : Nat} (s : SysState n) : Prop :=
  s.renders ≤ 1
  ∧ (s.renders = 1 → s.artifact = true ∨ ∃ i, s.pcs i = PC.renderBusy)
  ∧ (∀ i, s.pcs i = PC.done Res.fresh → s.artifact = true)
  ∧ (∀ i, s.pcs i ≠ PC.done Res.err)
  ∧ (∀ i j, s.pcs i = PC.done Res.fresh → s.pcs j = PC.done Res.fresh →
      i = j)

/-- The full invariant for success schedules. -/
def InvB {n : Nat} (s : SysState n) : Prop := InvA s ∧ InvBx s

/-! ### Basic lemmas on the deletion loop -/

theorem sumSizes_nil : sumSizes [] = 0 := rfl

theorem sumSizes_cons (e : Ent) (l : List Ent) :
    sumSizes (e :: l) = e.size + sumSizes l := by
  simp [sumSizes]

/-- When every unlink succeeds, the loop deletes exactly the first
needCount candidates, counting their number and bytes, and decrements the
running total by exactly the deleted bytes. -/
theorem pruneLoop_okBeh (maxBytes : Int) :
    ∀ (l : List Ent) (cur : Int),
      pruneLoop maxBytes okBeh l cur =
        ⟨needCount maxBytes l cur,
         sumSizes (l.take (needCount maxBytes l cur)),
         cur - sumSizes (l.take (needCount maxBytes l cur)),
         l.take (needCount maxBytes l cur)⟩ := by
  intro l
  induction l with
  | nil => intro cur; simp [pruneLoop, needCount, sumSizes]
  | cons e rest ih =>
    intro cur
    by_cases h : cur ≤ maxBytes
    · simp [pruneLoop, needCount, h, sumSizes]
    · simp only [pruneLoop, needCount, if_neg h, okBeh]
      rw [ih (cur - e.size)]
      simp [List.take_succ_cons, sumSizes_cons]
      constructor
      · omega
      · ring

/-- Minimality of the deleted segment: strictly before needCount many
deletions the running total still exceeds max_bytes. -/
theorem needCount_min (maxBytes : Int) :
    ∀ (l : List Ent) (cur : Int) (j : Nat),
      j < needCount maxBytes l cur →
      maxBytes < cur - sumSizes (l.take j) := by
  intro l
  induction l with
  | nil => intro cur j h; simp [needCount] at h
  | cons e rest ih =>
    intro cur j h
    by_cases hc : cur ≤ maxBytes
    · simp [needCount, hc] at h
    · simp only [needCount, if_neg hc] at h
      match j with
      | 0 =>
        simp [sumSizes]
        omega
      | j + 1 =>
        have hj : j < needCount maxBytes rest (cur - e.size) := by omega
        have := ih (cur - e.size) j hj
        simp only [List.take_succ_cons, sumSizes_cons]
        push_cast at this ⊢
        omega

/-- Sufficiency: if removing every candidate would bring the total to at
most max_bytes, then removing the needCount-delimited segment already
does. -/
theorem needCount_suff (maxBytes : Int) :
    ∀ (l : List Ent) (cur : Int),
      cur - sumSizes l ≤ maxBytes →
      cur - sumSizes (l.take (needCount maxBytes l cur)) ≤ maxBytes := by
  intro l
  induction l with
  | nil => intro cur h; simpa [needCount, sumSizes] using h
  | cons e rest ih =>
    intro cur h
    by_cases hc : cur ≤ maxBytes
    · simp [needCount, hc, sumSizes]
    · simp only [needCount, if_neg hc, List.take_succ_cons, sumSizes_cons]
      have h2 : (cur - e.size) - sumSizes rest ≤ maxBytes := by
        rw [sumSizes_cons] at h
        push_cast at h ⊢
        omega
      have := ih (cur - e.size) h2
      push_cast at this ⊢
      omega

/-- The loop only ever removes candidates from its input list, in order. -/
theorem pruneLoop_removed_sublist (maxBytes : Int) (beh : Nat → DelOutcome) :
    ∀ (l : List Ent) (cur : Int),
      List.Sublist (pruneLoop maxBytes beh l cur).removed l := by
  intro l
  induction l with
  | nil => intro cur; simp [pruneLoop]
  | cons e rest ih =>
    intro cur
    by_cases h : cur ≤ maxBytes
    · simp [pruneLoop, h]
    · simp only [pruneLoop, if_neg h]
      match hb : beh e.path with
      | .fail => exact List.Sublist.cons e (ih cur)
      | .ok => exact List.Sublist.cons₂ e (ih (cur - e.size))
      | .gone => exact List.Sublist.cons₂ e (ih (cur - e.size))

/-- A raising unlink is skipped: the loop continues on the remaining
candidates with unchanged counters and running total. -/
theorem pruneLoop_skips_fail (maxBytes : Int) (beh : Nat → DelOutcome)
    (e : Ent) (rest : List Ent) (cur : Int)
    (hf : beh e.path = .fail) (hover : ¬ cur ≤ maxBytes) :
    pruneLoop maxBytes beh (e :: rest) cur = pruneLoop maxBytes beh rest cur := by
  simp [pruneLoop, hover, hf]

/-- Entries whose unlink raises are never recorded as removed. -/
theorem pruneLoop_removed_not_fail (maxBytes : Int) (beh : Nat → DelOutcome) :
    ∀ (l : List Ent) (cur : Int) (e : Ent),
      e ∈ (pruneLoop maxBytes beh l cur).removed → beh e.path ≠ .fail := by
  intro l
  induction l with
  | nil => intro cur e h; simp [pruneLoop] at h
  | cons x rest ih =>
    intro cur e h
    by_cases hc : cur ≤ maxBytes
    · simp [pruneLoop, hc] at h
    · simp only [pruneLoop, if_neg hc] at h
      cases hb : beh x.path with
      | fail => rw [hb] at h; exact ih cur e h
      | ok =>
        rw [hb] at h
        simp only [List.mem_cons] at h
        rcases h with rfl | h
        · rw [hb]; intro hcon; cases hcon
        · exact ih (cur - x.size) e h
      | gone =>
        rw [hb] at h
        simp only [List.mem_cons] at h
        rcases h with rfl | h
        · rw [hb]; intro hcon; cases hcon
        · exact ih (cur - x.size) e h

/-- The counters report exactly the entries whose unlink returned normally:
deleted_files is their number, deleted_bytes their byte sum, and the running
total is decremented by exactly those bytes. -/
theorem pruneLoop_counts (maxBytes : Int) (beh : Nat → DelOutcome) :
    ∀ (l : List Ent) (cur : Int),
      (pruneLoop maxBytes beh l cur).df =
        (pruneLoop maxBytes beh l cur).removed.length
    ∧ (pruneLoop maxBytes beh l cur).db =
        sumSizes (pruneLoop maxBytes beh l cur).removed
    ∧ (pruneLoop maxBytes beh l cur).cur =
        cur - sumSizes (pruneLoop maxBytes beh l cur).removed := by
  intro l
  induction l with
  | nil => intro cur; simp [pruneLoop, sumSizes]
  | cons x rest ih =>
    intro cur
    by_cases hc : cur ≤ maxBytes
    · simp [pruneLoop, hc, sumSizes]
    · simp only [pruneLoop, if_neg hc]
      cases hb : beh x.path with
      | fail => exact ih cur
      | ok =>
        obtain ⟨h1, h2, h3⟩ := ih (cur - x.size)
        refine ⟨by simp [h1], by simp [h2, sumSizes_cons]; omega, ?_⟩
        simp only [h3, sumSizes_cons]
        push_cast
        ring
      | gone =>
        obtain ⟨h1, h2, h3⟩ := ih (cur - x.size)
        refine ⟨by simp [h1], by simp [h2, sumSizes_cons]; omega, ?_⟩
        simp only [h3, sumSizes_cons]
        push_cast
        ring

/-- With keep_newest = 0 every entry is deletable (cache.py line 131 guard
is false). -/
theorem deletableOf_zero (entries : List Ent) :
    deletableOf 0 entries = entries := by
  simp [deletableOf]

/-- With 0 < keep_newest < number of entries, the candidates are the slice
entries[:-keep_newest]. -/
theorem deletableOf_pos (keepNewest : Nat) (entries : List Ent)
    (hk : 0 < keepNewest) (hlen : keepNewest < entries.length) :
    deletableOf keepNewest entries =
      entries.take (entries.length - keepNewest) := by
  simp [deletableOf, hk, hlen]

/-- Sorting does not change the number of entries. -/
theorem sortByMtime_length (l : List Ent) :
    (sortByMtime l).length = l.length :=
  (List.perm_insertionSort _ l).length_eq

/-! ### Branch characterizations of prune_cache_if_needed -/

/-- Fast path (cache.py lines 90-92): when the first scan is within budget
the call returns immediately, deleting nothing and never touching the
global prune lock. -/
theorem prune_fast_path (maxBytes : Nat) (fs0 fs1 : FS) (keepNewest : Nat)
    (lockFree : Bool) (beh : Nat → DelOutcome)
    (h : totalSize fs0 ≤ maxBytes) :
    prune_cache_if_needed maxBytes fs0 fs1 keepNewest lockFree beh =
      ⟨⟨totalSize fs0, totalSize fs0, 0, 0, false⟩, [], 0, false, false⟩ := by
  simp [prune_cache_if_needed, h]

/-- Contended path (cache.py lines 97-108): the single lock attempt failed;
nothing is deleted, skipped_due_to_lock is set, and after_bytes is
recomputed from a fresh scan. -/
theorem prune_lock_busy (maxBytes : Nat) (fs0 fs1 : FS) (keepNewest : Nat)
    (beh : Nat → DelOutcome) (h0 : ¬ totalSize fs0 ≤ maxBytes) :
    prune_cache_if_needed maxBytes fs0 fs1 keepNewest false beh =
      ⟨⟨totalSize fs0, totalSize fs1, 0, 0, true⟩, [], 1, false, false⟩ := by
  simp [prune_cache_if_needed, h0]

/-- Under-lock recheck (cache.py lines 114-117): the size dropped below
budget while unlocked, so nothing is deleted. -/
theorem prune_recheck_under (maxBytes : Nat) (fs0 fs1 : FS)
    (keepNewest : Nat) (beh : Nat → DelOutcome)
    (h0 : ¬ totalSize fs0 ≤ maxBytes) (h1 : totalSize fs1 ≤ maxBytes) :
    prune_cache_if_needed maxBytes fs0 fs1 keepNewest true beh =
      ⟨⟨totalSize fs0, totalSize fs1, 0, 0, false⟩, [], 1, true, true⟩ := by
  simp [prune_cache_if_needed, h0, h1]

/-- Main path (cache.py lines 119-156): both scans exceed the budget and
the lock was acquired, so the deletion loop runs on the sorted candidate
slice. -/
theorem prune_main (maxBytes : Nat) (fs0 fs1 : FS) (keepNewest : Nat)
    (beh : Nat → DelOutcome)
    (h0 : ¬ totalSize fs0 ≤ maxBytes) (h1 : ¬ totalSize fs1 ≤ maxBytes) :
    prune_cache_if_needed maxBytes fs0 fs1 keepNewest true beh =
      ⟨⟨totalSize fs0,
        totalSize (fs1.filter (fun e =>
          !(((pruneLoop (maxBytes : Int) beh
                (deletableOf keepNewest (sortByMtime fs1))
                ((totalSize fs1 : Nat) : Int)).removed.map Ent.path).contains
              e.path) &&
          !(beh e.path == DelOutcome.gone))),
        (pruneLoop (maxBytes : Int) beh
          (deletableOf keepNewest (sortByMtime fs1))
          ((totalSize fs1 : Nat) : Int)).df,
        (pruneLoop (maxBytes : Int) beh
          (deletableOf keepNewest (sortByMtime fs1))
          ((totalSize fs1 : Nat) : Int)).db,
        false⟩,
       (pruneLoop (maxBytes : Int) beh
         (deletableOf keepNewest (sortByMtime fs1))
         ((totalSize fs1 : Nat) : Int)).removed,
       1, true, true⟩ := by
  simp [prune_cache_if_needed, h0, h1]

/-- Whatever the branch, the removed entries come from the deletable
candidate slice. -/
theorem prune_removed_subset_deletable (maxBytes : Nat) (fs0 fs1 : FS)
    (keepNewest : Nat) (lockFree : Bool) (beh : Nat → DelOutcome) :
    ∀ e ∈ (prune_cache_if_needed maxBytes fs0 fs1 keepNewest lockFree
            beh).removed,
      e ∈ deletableOf keepNewest (sortByMtime fs1) := by
  by_cases h0 : totalSize fs0 ≤ maxBytes
  · rw [prune_fast_path maxBytes fs0 fs1 keepNewest lockFree beh h0]
    intro e he
    simp at he
  · cases lockFree with
    | false =>
      rw [prune_lock_busy maxBytes fs0 fs1 keepNewest beh h0]
      intro e he
      simp at he
    | true =>
      by_cases h1 : totalSize fs1 ≤ maxBytes
      · rw [prune_recheck_under maxBytes fs0 fs1 keepNewest beh h0 h1]
        intro e he
        simp at he
      · rw [prune_main maxBytes fs0 fs1 keepNewest beh h0 h1]
        intro e he
        exact List.Sublist.subset
          (pruneLoop_removed_sublist (maxBytes : Int) beh _ _) he

/-! ## Claim C3 -/

/-- Claim C3: for every prune call that acquires the global prune lock, the
set of files it deletes is the minimal oldest-first (ascending mtime)
segment of the candidate list whose removal brings the running total to at
most maxBytes (whenever removing all candidates would reach the budget at
all, which with keepNewestN = 0 always holds since the total would drop to
zero); zero files are deleted when the total is already within budget at
the initial check or at the under-lock recheck; and in the concrete
scenario of files of sizes 4 GiB, 3 GiB, 2 GiB with mtimes t1 < t2 < t3 and
maxBytes = 5 GiB, exactly the t1 file is deleted and the result reports
deletedFiles = 1, deletedBytes = 4 GiB, after = 5 GiB. -/
theorem C3_prune_minimal_oldest_segment (maxBytes : Nat) (fs0 fs1 : FS) :
    (totalSize fs0 ≤ maxBytes →
      prune_cache_if_needed maxBytes fs0 fs1 0 true okBeh =
        ⟨⟨totalSize fs0, totalSize fs0, 0, 0, false⟩, [], 0, false, false⟩)
  ∧ (¬ totalSize fs0 ≤ maxBytes → totalSize fs1 ≤ maxBytes →
      prune_cache_if_needed maxBytes fs0 fs1 0 true okBeh =
        ⟨⟨totalSize fs0, totalSize fs1, 0, 0, false⟩, [], 1, true, true⟩)
  ∧ (¬ totalSize fs0 ≤ maxBytes → ¬ totalSize fs1 ≤ maxBytes →
      (prune_cache_if_needed maxBytes fs0 fs1 0 true okBeh).removed =
        (sortByMtime fs1).take
          (needCount (maxBytes : Int) (sortByMtime fs1) (totalSize fs1))
    ∧ (prune_cache_if_needed maxBytes fs0 fs1 0 true okBeh).res.deleted_files
        = needCount (maxBytes : Int) (sortByMtime fs1) (totalSize fs1)
    ∧ (prune_cache_if_needed maxBytes fs0 fs1 0 true okBeh).res.deleted_bytes
        = sumSizes
            ((prune_cache_if_needed maxBytes fs0 fs1 0 true okBeh).removed)
    ∧ (∀ j, j < needCount (maxBytes : Int) (sortByMtime fs1) (totalSize fs1) →
        (maxBytes : Int) <
          (totalSize fs1 : Int) - sumSizes ((sortByMtime fs1).take j))
    ∧ ((totalSize fs1 : Int) - sumSizes (sortByMtime fs1) ≤ (maxBytes : Int) →
        (totalSize fs1 : Int) -
          sumSizes ((prune_cache_if_needed maxBytes fs0 fs1 0 true
            okBeh).removed) ≤ (maxBytes : Int)))
  ∧ prune_cache_if_needed (5 * 1024 ^ 3)
      [⟨1, 4 * 1024 ^ 3, 1⟩, ⟨2, 3 * 1024 ^ 3, 2⟩, ⟨3, 2 * 1024 ^ 3, 3⟩]
      [⟨1, 4 * 1024 ^ 3, 1⟩, ⟨2, 3 * 1024 ^ 3, 2⟩, ⟨3, 2 * 1024 ^ 3, 3⟩]
      0 true okBeh =
      ⟨⟨9 * 1024 ^ 3, 5 * 1024 ^ 3, 1, 4 * 1024 ^ 3, false⟩,
       [⟨1, 4 * 1024 ^ 3, 1⟩], 1, true, true⟩ := by
  refine ⟨fun h => prune_fast_path _ _ _ _ _ _ h,
          fun h0 h1 => prune_recheck_under _ _ _ _ _ h0 h1,
          fun h0 h1 => ?_, by decide⟩
  rw [prune_main maxBytes fs0 fs1 0 okBeh h0 h1, deletableOf_zero,
      pruneLoop_okBeh]
  refine ⟨rfl, rfl, rfl, fun j hj => needCount_min _ _ _ j hj, fun hs => ?_⟩
  exact needCount_suff (maxBytes : Int) (sortByMtime fs1) (totalSize fs1) hs

/-- Witness for C3 at concrete inputs: an under-budget snapshot is left
untouched without a lock attempt, and the over-budget recheck case applied
to a concrete pair of snapshots. -/
theorem C3_prune_minimal_oldest_segment_witness :
    prune_cache_if_needed 10 [⟨1, 3, 0⟩] [⟨1, 3, 0⟩] 0 true okBeh =
      ⟨⟨3, 3, 0, 0, false⟩, [], 0, false, false⟩
  ∧ prune_cache_if_needed 10 [⟨1, 20, 0⟩] [⟨1, 4, 0⟩] 0 true okBeh =
      ⟨⟨20, 4, 0, 0, false⟩, [], 1, true, true⟩ :=
  ⟨(C3_prune_minimal_oldest_segment 10 [⟨1, 3, 0⟩] [⟨1, 3, 0⟩]).1
     (by decide),
   (C3_prune_minimal_oldest_segment 10 [⟨1, 20, 0⟩] [⟨1, 4, 0⟩]).2.1
     (by decide) (by decide)⟩

/-! ## Claim C4 -/

/-- Claim C4 (amended): whenever prune is called with keepNewestN > 0 AND
the number of scanned entries strictly exceeds keepNewestN, the newest N
entries by modification time are excluded from the deletable candidate set
and are never deleted, even if the total still exceeds budget; in
particular with keepNewestN = 1 and three files with a unique newest mtime,
the newest file is never deleted. (The unamended universal claim is false:
when at most keepNewestN entries exist, the source code guard
len(entries) > keep_newest fails and every entry, the newest included,
remains deletable — see the counterexample.) -/
theorem C4_keep_newest_protection (maxBytes : Nat) (fs0 fs1 : FS)
    (keepNewest : Nat) (lockFree : Bool) (beh : Nat → DelOutcome)
    (hk : 0 < keepNewest) (hlen : keepNewest < fs1.length) :
    (∀ e ∈ (prune_cache_if_needed maxBytes fs0 fs1 keepNewest lockFree
              beh).removed,
        e ∈ (sortByMtime fs1).take (fs1.length - keepNewest))
  ∧ ((fs1.map Ent.path).Nodup →
      ∀ e ∈ (sortByMtime fs1).drop (fs1.length - keepNewest),
        e ∉ (prune_cache_if_needed maxBytes fs0 fs1 keepNewest lockFree
              beh).removed)
  ∧ (keepNewest = 1 → fs1.length = 3 → (fs1.map Ent.path).Nodup →
      ∀ e ∈ fs1, (∀ f ∈ fs1, f ≠ e → f.mtime < e.mtime) →
        e ∉ (prune_cache_if_needed maxBytes fs0 fs1 keepNewest lockFree
              beh).removed) := by
  have hsortlen : (sortByMtime fs1).length = fs1.length := sortByMtime_length fs1
  have hsub : ∀ e ∈ (prune_cache_if_needed maxBytes fs0 fs1 keepNewest
        lockFree beh).removed,
      e ∈ (sortByMtime fs1).take (fs1.length - keepNewest) := by
    intro e he
    have h := prune_removed_subset_deletable maxBytes fs0 fs1 keepNewest
      lockFree beh e he
    rw [deletableOf_pos keepNewest (sortByMtime fs1) hk
      (by rw [hsortlen]; exact hlen), hsortlen] at h
    exact h
  have hdropfree : (fs1.map Ent.path).Nodup →
      ∀ e ∈ (sortByMtime fs1).drop (fs1.length - keepNewest),
        e ∉ (prune_cache_if_needed maxBytes fs0 fs1 keepNewest lockFree
              beh).removed := by
    intro hnodup e hdrop hrem
    have hnd1 : fs1.Nodup := List.Nodup.of_map Ent.path hnodup
    have hnds : (sortByMtime fs1).Nodup :=
      ((List.perm_insertionSort _ fs1).nodup_iff).mpr hnd1
    have hsplit : (sortByMtime fs1).take (fs1.length - keepNewest) ++
        (sortByMtime fs1).drop (fs1.length - keepNewest) = sortByMtime fs1 :=
      List.take_append_drop _ _
    have hdisj : ((sortByMtime fs1).take (fs1.length - keepNewest)).Disjoint
        ((sortByMtime fs1).drop (fs1.length - keepNewest)) :=
      List.disjoint_of_nodup_append (by rw [hsplit]; exact hnds)
    exact hdisj (hsub e hrem) hdrop
  refine ⟨hsub, hdropfree, ?_⟩
  intro hk1 h3 hnodup e he hmax hrem
  subst hk1
  have hin : e ∈ (sortByMtime fs1).take (fs1.length - 1) := hsub e hrem
  have hdropne : (sortByMtime fs1).drop (fs1.length - 1) ≠ [] := by
    intro hnil
    have : ((sortByMtime fs1).drop (fs1.length - 1)).length = 0 := by
      rw [hnil]; rfl
    rw [List.length_drop, hsortlen, h3] at this
    omega
  obtain ⟨t, ht⟩ := List.exists_mem_of_ne_nil _ hdropne
  have hpair : List.Pairwise (fun a b : Ent => a.mtime ≤ b.mtime)
      (sortByMtime fs1) := List.sorted_insertionSort _ fs1
  have hle : e.mtime ≤ t.mtime := by
    have := (List.pairwise_append.mp
      (by rw [List.take_append_drop (fs1.length - 1) (sortByMtime fs1)]
          exact hpair)).2.2
    exact this e hin t ht
  have htfs : t ∈ fs1 :=
    ((List.perm_insertionSort _ fs1).mem_iff).mp
      (List.drop_subset _ _ ht)
  by_cases hte : t = e
  · subst hte
    have hnd1 : fs1.Nodup := List.Nodup.of_map Ent.path hnodup
    have hnds : (sortByMtime fs1).Nodup :=
      ((List.perm_insertionSort _ fs1).nodup_iff).mpr hnd1
    have hdisj := List.disjoint_of_nodup_append
      (by rw [List.take_append_drop (fs1.length - 1) (sortByMtime fs1)]
          exact hnds)
    exact hdisj hin ht
  · have := hmax t htfs hte
    omega

/-- Counterexample to claim C4 as stated: with keepNewestN = 1 and a single
over-budget file (so that the count of entries does not exceed
keepNewestN), the unique newest-by-mtime file IS deleted, because the
source guard len(entries) > keep_newest is false and the protection slice
is never applied. -/
theorem C4_keep_newest_protection_counterexample :
    (prune_cache_if_needed 5 [⟨7, 10, 0⟩] [⟨7, 10, 0⟩] 1 true
      okBeh).removed = [⟨7, 10, 0⟩] := by decide

/-- Witness for C4 at concrete inputs: three files totalling 16 > 5 bytes,
keepNewestN = 1; the unique newest file (mtime 3) survives the prune. -/
theorem C4_keep_newest_protection_witness :
    Ent.mk 3 9 12 ∉ (prune_cache_if_needed 5
      [⟨1, 4, 10⟩, ⟨2, 3, 11⟩, ⟨3, 9, 12⟩]
      [⟨1, 4, 10⟩, ⟨2, 3, 11⟩, ⟨3, 9, 12⟩] 1 true okBeh).removed :=
  (C4_keep_newest_protection 5 [⟨1, 4, 10⟩, ⟨2, 3, 11⟩, ⟨3, 9, 12⟩]
      [⟨1, 4, 10⟩, ⟨2, 3, 11⟩, ⟨3, 9, 12⟩] 1 true okBeh (by decide)
      (by decide)).2.2 rfl (by decide) (by decide) ⟨3, 9, 12⟩ (by decide)
      (by decide)

/-! ## Claim C6 -/

/-- Claim C6: prune never makes more than one acquisition attempt on the
global prune lock (no blocking, retry or wait; on the under-budget fast
path it makes none, and exactly one as soon as the initial scan exceeds the
budget); whenever that single attempt fails, it deletes nothing and returns
skippedDueToLock = true, deletedFiles = 0, deletedBytes = 0, the original
before size, and an after size freshly recomputed from a new directory
scan. -/
theorem C6_prune_lock_single_attempt :
    (∀ (maxBytes : Nat) (fs0 fs1 : FS) (keepNewest : Nat) (lockFree : Bool)
        (beh : Nat → DelOutcome),
       (prune_cache_if_needed maxBytes fs0 fs1 keepNewest lockFree
          beh).lockAttempts ≤ 1)
  ∧ (∀ (maxBytes : Nat) (fs0 fs1 : FS) (keepNewest : Nat) (lockFree : Bool)
        (beh : Nat → DelOutcome), ¬ totalSize fs0 ≤ maxBytes →
       (prune_cache_if_needed maxBytes fs0 fs1 keepNewest lockFree
          beh).lockAttempts = 1)
  ∧ (∀ (maxBytes : Nat) (fs0 fs1 : FS) (keepNewest : Nat)
        (beh : Nat → DelOutcome), ¬ totalSize fs0 ≤ maxBytes →
       prune_cache_if_needed maxBytes fs0 fs1 keepNewest false beh =
         ⟨⟨totalSize fs0, totalSize fs1, 0, 0, true⟩, [], 1, false,
          false⟩) := by
  have hone : ∀ (maxBytes : Nat) (fs0 fs1 : FS) (keepNewest : Nat)
      (lockFree : Bool) (beh : Nat → DelOutcome),
      ¬ totalSize fs0 ≤ maxBytes →
      (prune_cache_if_needed maxBytes fs0 fs1 keepNewest lockFree
        beh).lockAttempts = 1 := by
    intro maxBytes fs0 fs1 keepNewest lockFree beh h0
    cases lockFree with
    | false => rw [prune_lock_busy maxBytes fs0 fs1 keepNewest beh h0]
    | true =>
      by_cases h1 : totalSize fs1 ≤ maxBytes
      · rw [prune_recheck_under maxBytes fs0 fs1 keepNewest beh h0 h1]
      · rw [prune_main maxBytes fs0 fs1 keepNewest beh h0 h1]
  refine ⟨?_, hone, fun maxBytes fs0 fs1 keepNewest beh h0 =>
    prune_lock_busy maxBytes fs0 fs1 keepNewest beh h0⟩
  intro maxBytes fs0 fs1 keepNewest lockFree beh
  by_cases h0 : totalSize fs0 ≤ maxBytes
  · rw [prune_fast_path maxBytes fs0 fs1 keepNewest lockFree beh h0]
    exact Nat.zero_le 1
  · rw [hone maxBytes fs0 fs1 keepNewest lockFree beh h0]

/-- Witness for C6 at concrete inputs: the initial scan is over budget, the
lock attempt fails, and the call returns the skipped result with the before
size from the first snapshot and the after size from the fresh second
snapshot. -/
theorem C6_prune_lock_single_attempt_witness :
    prune_cache_if_needed 5 [⟨1, 10, 0⟩] [⟨2, 7, 1⟩] 0 false okBeh =
      ⟨⟨10, 7, 0, 0, true⟩, [], 1, false, false⟩ :=
  C6_prune_lock_single_attempt.2.2 5 [⟨1, 10, 0⟩] [⟨2, 7, 1⟩] 0 okBeh
    (by decide)

/-! ## Claim C7 -/

/-- Claim C7 (amended): during the deletion loop, a raising unlink
(permission denied, file busy) is tolerated and that file is skipped — it
is not counted in deletedFiles or deletedBytes and not subtracted from the
running total — and pruning continues with the remaining candidates; the
loop is a total function, so no deletion failure propagates out of
prune_cache_if_needed. However, a file that is already gone does NOT raise
(the source uses unlink(missing_ok=True)) and therefore IS counted in
deletedFiles and deletedBytes and subtracted from the running total — see
the counterexample refuting the unamended claim. -/
theorem C7_deletion_failures_skipped :
    (∀ (maxBytes : Int) (beh : Nat → DelOutcome) (e : Ent)
        (rest : List Ent) (cur : Int),
       beh e.path = .fail → ¬ cur ≤ maxBytes →
       pruneLoop maxBytes beh (e :: rest) cur = pruneLoop maxBytes beh rest cur)
  ∧ (∀ (maxBytes : Int) (beh : Nat → DelOutcome) (l : List Ent)
        (cur : Int) (e : Ent),
       e ∈ (pruneLoop maxBytes beh l cur).removed → beh e.path ≠ .fail)
  ∧ (∀ (maxBytes : Int) (beh : Nat → DelOutcome) (l : List Ent)
        (cur : Int),
       (pruneLoop maxBytes beh l cur).df =
         (pruneLoop maxBytes beh l cur).removed.length
     ∧ (pruneLoop maxBytes beh l cur).db =
         sumSizes (pruneLoop maxBytes beh l cur).removed
     ∧ (pruneLoop maxBytes beh l cur).cur =
         cur - sumSizes (pruneLoop maxBytes beh l cur).removed)
  ∧ (∀ (maxBytes : Nat) (fs0 fs1 : FS) (keepNewest : Nat)
        (lockFree : Bool) (beh : Nat → DelOutcome),
       (prune_cache_if_needed maxBytes fs0 fs1 keepNewest lockFree
          beh).res.deleted_files =
         (prune_cache_if_needed maxBytes fs0 fs1 keepNewest lockFree
            beh).removed.length
     ∧ (prune_cache_if_needed maxBytes fs0 fs1 keepNewest lockFree
          beh).res.deleted_bytes =
         sumSizes ((prune_cache_if_needed maxBytes fs0 fs1 keepNewest
            lockFree beh).removed)
     ∧ ∀ e ∈ (prune_cache_if_needed maxBytes fs0 fs1 keepNewest lockFree
          beh).removed, beh e.path ≠ .fail) := by
  refine ⟨pruneLoop_skips_fail, pruneLoop_removed_not_fail,
    fun maxBytes beh l cur => pruneLoop_counts maxBytes beh l cur, ?_⟩
  intro maxBytes fs0 fs1 keepNewest lockFree beh
  by_cases h0 : totalSize fs0 ≤ maxBytes
  · rw [prune_fast_path maxBytes fs0 fs1 keepNewest lockFree beh h0]
    exact ⟨rfl, rfl, by intro e he; simp at he⟩
  · cases lockFree with
    | false =>
      rw [prune_lock_busy maxBytes fs0 fs1 keepNewest beh h0]
      exact ⟨rfl, rfl, by intro e he; simp at he⟩
    | true =>
      by_cases h1 : totalSize fs1 ≤ maxBytes
      · rw [prune_recheck_under maxBytes fs0 fs1 keepNewest beh h0 h1]
        exact ⟨rfl, rfl, by intro e he; simp at he⟩
      · rw [prune_main maxBytes fs0 fs1 keepNewest beh h0 h1]
        obtain ⟨hd1, hd2, _⟩ := pruneLoop_counts (maxBytes : Int) beh
          (deletableOf keepNewest (sortByMtime fs1))
          ((totalSize fs1 : Nat) : Int)
        exact ⟨hd1, hd2, fun e he =>
          pruneLoop_removed_not_fail (maxBytes : Int) beh _ _ e he⟩

/-- Counterexample to claim C7 as stated: in the 4+3+2 GiB scenario with
maxBytes = 5 GiB, the oldest file has already vanished by the time its
unlink runs; unlink(missing_ok=True) returns normally, so the file IS
counted — deletedFiles = 1 and deletedBytes = 4 GiB — and its size IS
subtracted from the running total (which is why the loop stops before
touching the next candidate), contradicting the claim that an
already-gone file is not counted and not subtracted. -/
theorem C7_deletion_failures_skipped_counterexample :
    (fun p => if p = 1 then DelOutcome.gone else DelOutcome.ok) 1 =
      DelOutcome.gone
  ∧ (prune_cache_if_needed (5 * 1024 ^ 3)
      [⟨1, 4 * 1024 ^ 3, 1⟩, ⟨2, 3 * 1024 ^ 3, 2⟩, ⟨3, 2 * 1024 ^ 3, 3⟩]
      [⟨1, 4 * 1024 ^ 3, 1⟩, ⟨2, 3 * 1024 ^ 3, 2⟩, ⟨3, 2 * 1024 ^ 3, 3⟩]
      0 true
      (fun p => if p = 1 then DelOutcome.gone else DelOutcome.ok)).removed =
      [⟨1, 4 * 1024 ^ 3, 1⟩]
  ∧ (prune_cache_if_needed (5 * 1024 ^ 3)
      [⟨1, 4 * 1024 ^ 3, 1⟩, ⟨2, 3 * 1024 ^ 3, 2⟩, ⟨3, 2 * 1024 ^ 3, 3⟩]
      [⟨1, 4 * 1024 ^ 3, 1⟩, ⟨2, 3 * 1024 ^ 3, 2⟩, ⟨3, 2 * 1024 ^ 3, 3⟩]
      0 true
      (fun p => if p = 1 then DelOutcome.gone else DelOutcome.ok)).res =
      ⟨9 * 1024 ^ 3, 5 * 1024 ^ 3, 1, 4 * 1024 ^ 3, false⟩ := by
  refine ⟨rfl, by decide, by decide⟩

/-- Witness for C7 at concrete inputs: a permission failure on the oldest
file is skipped — not counted, not subtracted — and pruning continues with
the next candidate. -/
theorem C7_deletion_failures_skipped_witness :
    pruneLoop 5 (fun p => if p = 0 then DelOutcome.fail else DelOutcome.ok)
      [⟨1, 4, 0⟩, ⟨2, 3, 1⟩, ⟨3, 2, 2⟩] 9 =
    pruneLoop 5 (fun p => if p = 0 then DelOutcome.fail else DelOutcome.ok)
      [⟨2, 3, 1⟩, ⟨3, 2, 2⟩] 9 :=
  C7_deletion_failures_skipped.1 5
    (fun p => if p = 0 then DelOutcome.fail else DelOutcome.ok)
    ⟨1, 4, 0⟩ [⟨2, 3, 1⟩, ⟨3, 2, 2⟩] 9 (by decide) (by decide)

/-! ### Lemmas on sanitization and library resolution -/

/-- No sanitized character is a path separator. -/
theorem sanitizeChar_not_sep (o : Char) :
    sanitizeChar o ≠ '/' ∧ sanitizeChar o ≠ '\\' := by
  unfold sanitizeChar
  by_cases h : (o.isAlphanum || ['.', '_', '-'].contains o) = true
  · rw [if_pos h]
    constructor
    · rintro rfl
      exact absurd h (by decide)
    · rintro rfl
      exact absurd h (by decide)
  · rw [if_neg h]
    exact ⟨by decide, by decide⟩

/-- The disk fallback of the default-library lookup always scans the data
directory. -/
theorem pickFromDataDir_events (env : EnvModel) :
    (pickFromDataDir env).2 = [Ev.fsDataDirScan] := by
  unfold pickFromDataDir
  by_cases h : env.dataDirExists = false
  · rw [if_pos h]
  · rw [if_neg h]
    cases h2 : env.h5adStems with
    | nil => rfl
    | cons s rest => rfl

/-- Library resolution emits no event beyond possibly one data-directory
scan. -/
theorem pick_default_library_events (env : EnvModel) :
    (pick_default_library env).2 = [] ∨
    (pick_default_library env).2 = [Ev.fsDataDirScan] := by
  cases hd : env.defaultLib with
  | none =>
    simp only [pick_default_library, hd]
    exact Or.inr (pickFromDataDir_events env)
  | some v =>
    by_cases ht : pyStrip v = ""
    · simp only [pick_default_library, hd, if_pos ht]
      exact Or.inr (pickFromDataDir_events env)
    · simp only [pick_default_library, hd, if_neg ht]
      exact Or.inl trivial

/-- Same for the library-or-default expression. -/
theorem resolveLibrary_events (library : Option String) (env : EnvModel) :
    (resolveLibrary library env).2 = [] ∨
    (resolveLibrary library env).2 = [Ev.fsDataDirScan] := by
  cases library with
  | none => exact pick_default_library_events env
  | some l =>
    by_cases hl : l = ""
    · simp only [resolveLibrary, if_pos hl]
      exact pick_default_library_events env
    · simp only [resolveLibrary, if_neg hl]
      exact Or.inl trivial

/-! ## Claim C9 -/

/-- Claim C9: sanitization keeps exactly the alphanumeric characters and
those in "._-" and replaces every other character with an underscore; an
input that strips to the empty string is rejected as BAD_INPUT; every
accepted sanitized key is non-empty and contains no path separator; and
the key "a/b" sanitizes to "a_b". -/
theorem C9_safe_gene_sanitization :
    (∀ gene g, safe_gene gene = Except.ok g →
       g.data = (pyStrip gene).data.map sanitizeChar)
  ∧ (∀ ch, (ch.isAlphanum || ['.', '_', '-'].contains ch) = true →
       sanitizeChar ch = ch)
  ∧ (∀ ch, (ch.isAlphanum || ['.', '_', '-'].contains ch) = false →
       sanitizeChar ch = '_')
  ∧ (∀ gene g, safe_gene gene = Except.ok g → g ≠ "")
  ∧ (∀ gene g, safe_gene gene = Except.ok g →
       ∀ c ∈ g.data, c ≠ '/' ∧ c ≠ '\\')
  ∧ (∀ gene, pyStrip gene = "" →
       safe_gene gene = Except.error ⟨"BAD_INPUT", "gene 不能为空。", none⟩)
  ∧ safe_gene "a/b" = Except.ok "a_b" := by
  have hchar : ∀ gene g, safe_gene gene = Except.ok g →
      g.data = (pyStrip gene).data.map sanitizeChar := by
    intro gene g h
    simp only [safe_gene] at h
    by_cases he : pyStrip gene = ""
    · rw [if_pos he] at h
      cases h
    · rw [if_neg he] at h
      injection h with h2
      rw [← h2]
  refine ⟨hchar, ?_, ?_, ?_, ?_, ?_, by decide⟩
  · intro ch h
    unfold sanitizeChar
    rw [if_pos h]
  · intro ch h
    have h2 : ¬ ((ch.isAlphanum || ['.', '_', '-'].contains ch) = true) := by
      rw [h]
      exact Bool.false_ne_true
    unfold sanitizeChar
    rw [if_neg h2]
  · intro gene g h hg
    simp only [safe_gene] at h
    by_cases he : pyStrip gene = ""
    · rw [if_pos he] at h
      cases h
    · rw [if_neg he] at h
      injection h with h2
      apply he
      have hd : g.data = (pyStrip gene).data.map sanitizeChar := by
        rw [← h2]
      rw [hg] at hd
      have hnil : (pyStrip gene).data = [] := by
        have hd2 : (pyStrip gene).data.map sanitizeChar = ([] : List Char) :=
          hd.symm
        exact List.map_eq_nil_iff.mp hd2
      cases hp : pyStrip gene with
      | mk l =>
        rw [hp] at hnil
        simp only [String.data] at hnil
        rw [hnil]
  · intro gene g h c hc
    rw [hchar gene g h] at hc
    obtain ⟨o, _, rfl⟩ := List.mem_map.mp hc
    exact sanitizeChar_not_sep o
  · intro gene h
    simp [safe_gene, h]

/-- Witness for C9 at a concrete input: the raw key " a/b " strips and
sanitizes to the non-empty separator-free key "a_b". -/
theorem C9_safe_gene_sanitization_witness :
    ("a_b" : String) ≠ "" ∧
    (("a_b" : String).data = (pyStrip " a/b ").data.map sanitizeChar) :=
  ⟨C9_safe_gene_sanitization.2.2.2.1 " a/b " "a_b" (by decide),
   C9_safe_gene_sanitization.1 " a/b " "a_b" (by decide)⟩

/-! ## Claim C10 -/

/-- Claim C10: sanitization is not injective — the distinct raw keys "a/b"
and "a:b" both sanitize to "a_b" and therefore map to the same artifact
output path and the same lock path, so requests with different raw keys
alias a single cached artifact. -/
theorem C10_sanitization_aliasing :
    ("a/b" : String) ≠ "a:b"
  ∧ safe_gene "a/b" = Except.ok "a_b"
  ∧ safe_gene "a:b" = Except.ok "a_b"
  ∧ safe_gene "a/b" = safe_gene "a:b"
  ∧ pngOutPath "a_b" = "figures/png/a_b.png"
  ∧ plotPngLockPath "a_b" = "figures/locks/a_b.plot_png.lock" :=
  ⟨by decide, by decide, by decide, by decide, rfl, rfl⟩

/-! ## Claim C2 -/

/-- Claim C2 (amended): whenever the artifact file already exists at its
deterministic output path AND library resolution succeeds (a non-empty
library is passed, or DEFAULT_LIB is set, or the data directory scan finds
a file), an ensure call with that identity returns cacheHit = true and
does not invoke the render, the prune, or the per-artifact lock,
regardless of prior call outcomes. (The unamended claim — every such call
returns a hit — is false: the source resolves the default library BEFORE
the existence check, so a call without an explicit library fails with
FILE_NOT_FOUND even though the artifact exists — see the
counterexample.) -/
theorem C2_cache_hit_fast_path (gene : String) (library : Option String)
    (env : EnvModel) (g lib : String) (evs : List Ev)
    (hg : safe_gene gene = Except.ok g)
    (hart : env.artifactExists = true)
    (hlib : resolveLibrary library env = (Except.ok lib, evs)) :
    (ensure_plot_png gene library env).1 = Except.ok ⟨g, pngOutPath g, true⟩
  ∧ Ev.renderCall ∉ (ensure_plot_png gene library env).2
  ∧ Ev.lockAcquire ∉ (ensure_plot_png gene library env).2
  ∧ Ev.pruneCall ∉ (ensure_plot_png gene library env).2 := by
  have hevs : evs = [] ∨ evs = [Ev.fsDataDirScan] := by
    have h := resolveLibrary_events library env
    rw [hlib] at h
    exact h
  simp only [ensure_plot_png, hg, hlib, hart, if_true]
  rcases hevs with rfl | rfl <;> simp

/-- Counterexample to claim C2 as stated: the artifact exists, but the
call passes no library, DEFAULT_LIB is unset, and DATA_DIR is missing; the
default-library lookup — run before the existence check — raises
FILE_NOT_FOUND, so the call does not return a cache hit. -/
theorem C2_cache_hit_fast_path_counterexample :
    (ensure_plot_png "geneX" none ⟨none, false, [], true, true, none⟩).1 =
      Except.error ⟨"FILE_NOT_FOUND", "DATA_DIR 不存在。", some "DATA_DIR"⟩
  ∧ ∀ r : RenderResultM,
      (ensure_plot_png "geneX" none
        ⟨none, false, [], true, true, none⟩).1 ≠ Except.ok r := by
  have h : (ensure_plot_png "geneX" none
      ⟨none, false, [], true, true, none⟩).1 =
      Except.error ⟨"FILE_NOT_FOUND", "DATA_DIR 不存在。", some "DATA_DIR"⟩ :=
    by decide
  refine ⟨h, fun r hr => ?_⟩
  rw [h] at hr
  cases hr

/-- Witness for C2 at concrete inputs: with an explicit library and the
artifact present, the call reports a cache hit without lock, prune or
render. -/
theorem C2_cache_hit_fast_path_witness :
    (ensure_plot_png "a b" (some "sham")
        ⟨none, false, [], true, true, none⟩).1 =
      Except.ok ⟨"a_b", pngOutPath "a_b", true⟩
  ∧ Ev.renderCall ∉ (ensure_plot_png "a b" (some "sham")
      ⟨none, false, [], true, true, none⟩).2
  ∧ Ev.lockAcquire ∉ (ensure_plot_png "a b" (some "sham")
      ⟨none, false, [], true, true, none⟩).2
  ∧ Ev.pruneCall ∉ (ensure_plot_png "a b" (some "sham")
      ⟨none, false, [], true, true, none⟩).2 :=
  C2_cache_hit_fast_path "a b" (some "sham")
    ⟨none, false, [], true, true, none⟩ "a_b" "sham" [] (by decide) rfl
    (by decide)

/-! ## Claim C5 -/

/-- Claim C5 (amended): an unsupported dpi is rejected before the
per-artifact lock is acquired, before the artifact existence check, and
before prune or render run; when the library is passed explicitly (or the
rejection is reached at all), the only filesystem effect that can precede
the rejection is the data-directory scan done by the default-library
lookup, and with an explicit non-empty library the rejection is BAD_INPUT
with no filesystem access at all. (The unamended claim — rejection before
ANY filesystem access — is false: with no explicit library the source
scans DATA_DIR before checking the dpi — see the counterexample.) -/
theorem C5_tiff_dpi_validation (gene : String) (dpi : Int)
    (library : Option String) (env : EnvModel) (g : String)
    (hg : safe_gene gene = Except.ok g)
    (hdpi : dpi ∉ ALLOWED_EXPORT_DPI) :
    ((ensure_export_tiff gene dpi library env).2 = [] ∨
     (ensure_export_tiff gene dpi library env).2 = [Ev.fsDataDirScan])
  ∧ Ev.lockAcquire ∉ (ensure_export_tiff gene dpi library env).2
  ∧ Ev.fsArtifactCheck ∉ (ensure_export_tiff gene dpi library env).2
  ∧ Ev.pruneCall ∉ (ensure_export_tiff gene dpi library env).2
  ∧ Ev.renderCall ∉ (ensure_export_tiff gene dpi library env).2
  ∧ (∀ l, library = some l → l ≠ "" →
      ensure_export_tiff gene dpi library env =
        (Except.error ⟨"BAD_INPUT", "不支持的 dpi 选项。",
           some ("got=" ++ toString dpi)⟩, [])) := by
  have htrace : (ensure_export_tiff gene dpi library env).2 = [] ∨
      (ensure_export_tiff gene dpi library env).2 = [Ev.fsDataDirScan] := by
    simp only [ensure_export_tiff, hg]
    rcases hres : resolveLibrary library env with ⟨r, evs⟩
    have hevs : evs = [] ∨ evs = [Ev.fsDataDirScan] := by
      have h := resolveLibrary_events library env
      rw [hres] at h
      exact h
    cases r with
    | error e => exact hevs
    | ok lib => simp only [if_neg hdpi]; exact hevs
  refine ⟨htrace, ?_, ?_, ?_, ?_, ?_⟩
  · rcases htrace with h | h <;> rw [h] <;> simp
  · rcases htrace with h | h <;> rw [h] <;> simp
  · rcases htrace with h | h <;> rw [h] <;> simp
  · rcases htrace with h | h <;> rw [h] <;> simp
  · intro l hl hlne
    subst hl
    simp only [ensure_export_tiff, hg, resolveLibrary, if_neg hlne,
      if_neg hdpi]

/-- Counterexample to claim C5 as stated: dpi = 200 is unsupported, no
library is passed and DEFAULT_LIB is unset; the call does end in the dpi
BAD_INPUT rejection, but only after the default-library lookup has already
scanned the data directory — a filesystem access before the rejection. -/
theorem C5_tiff_dpi_validation_counterexample :
    (ensure_export_tiff "geneX" 200 none
        ⟨none, true, ["MCAO_1d", "sham"], false, true, none⟩).1 =
      Except.error ⟨"BAD_INPUT", "不支持的 dpi 选项。", some "got=200"⟩
  ∧ Ev.fsDataDirScan ∈ (ensure_export_tiff "geneX" 200 none
      ⟨none, true, ["MCAO_1d", "sham"], false, true, none⟩).2 :=
  ⟨by decide, by decide⟩

/-- Witness for C5 at concrete inputs: with an explicit library the
unsupported dpi 200 is rejected with BAD_INPUT and an empty effect
trace. -/
theorem C5_tiff_dpi_validation_witness :
    ensure_export_tiff "geneX" 200 (some "sham")
        ⟨none, false, [], false, true, none⟩ =
      (Except.error ⟨"BAD_INPUT", "不支持的 dpi 选项。", some "got=200"⟩,
       []) :=
  (C5_tiff_dpi_validation "geneX" 200 (some "sham")
    ⟨none, false, [], false, true, none⟩ "geneX" (by decide)
    (by decide)).2.2.2.2.2 "sham" rfl (by decide)

/-- Every run of ensure_plot_png produces one of five effect traces: the
sanitization failure (no effects), the fast-path hit or the lock timeout
(resolution effects plus one existence check), the recheck hit under the
lock, the full render path (success or failure, both releasing the lock),
or a bare library-resolution failure. -/
theorem ensure_plot_png_trace (gene : String) (library : Option String)
    (env : EnvModel) :
    (ensure_plot_png gene library env).2 = [] ∨
    (ensure_plot_png gene library env).2 =
      (resolveLibrary library env).2 ++ [Ev.fsArtifactCheck] ∨
    (ensure_plot_png gene library env).2 =
      (resolveLibrary library env).2 ++
        [Ev.fsArtifactCheck, Ev.lockAcquire, Ev.fsArtifactCheck,
         Ev.lockRelease] ∨
    (ensure_plot_png gene library env).2 =
      (resolveLibrary library env).2 ++
        [Ev.fsArtifactCheck, Ev.lockAcquire, Ev.fsArtifactCheck,
         Ev.pruneCall, Ev.renderCall, Ev.lockRelease] ∨
    (ensure_plot_png gene library env).2 = (resolveLibrary library env).2 := by
  cases hsg : safe_gene gene with
  | error e =>
    left
    simp [ensure_plot_png, hsg]
  | ok g =>
    rcases hres : resolveLibrary library env with ⟨r, evs⟩
    cases r with
    | error e =>
      right; right; right; right
      simp [ensure_plot_png, hsg, hres]
    | ok lib =>
      by_cases ha : env.artifactExists = true
      · right; left
        simp [ensure_plot_png, hsg, hres, ha]
      · by_cases hl : env.lockFree = true
        · cases hde : env.drawError with
          | some e =>
            right; right; right; left
            simp [ensure_plot_png, hsg, hres, ha, hl, hde]
          | none =>
            right; right; right; left
            simp [ensure_plot_png, hsg, hres, ha, hl, hde]
        · right; left
          simp [ensure_plot_png, hsg, hres, ha, hl]

/-- Same trace characterization for ensure_export_tiff (the dpi rejection
lands in the bare-resolution-trace case). -/
theorem ensure_export_tiff_trace (gene : String) (dpi : Int)
    (library : Option String) (env : EnvModel) :
    (ensure_export_tiff gene dpi library env).2 = [] ∨
    (ensure_export_tiff gene dpi library env).2 =
      (resolveLibrary library env).2 ++ [Ev.fsArtifactCheck] ∨
    (ensure_export_tiff gene dpi library env).2 =
      (resolveLibrary library env).2 ++
        [Ev.fsArtifactCheck, Ev.lockAcquire, Ev.fsArtifactCheck,
         Ev.lockRelease] ∨
    (ensure_export_tiff gene dpi library env).2 =
      (resolveLibrary library env).2 ++
        [Ev.fsArtifactCheck, Ev.lockAcquire, Ev.fsArtifactCheck,
         Ev.pruneCall, Ev.renderCall, Ev.lockRelease] ∨
    (ensure_export_tiff gene dpi library env).2 =
      (resolveLibrary library env).2 := by
  cases hsg : safe_gene gene with
  | error e =>
    left
    simp [ensure_export_tiff, hsg]
  | ok g =>
    rcases hres : resolveLibrary library env with ⟨r, evs⟩
    cases r with
    | error e =>
      right; right; right; right
      simp [ensure_export_tiff, hsg, hres]
    | ok lib =>
      by_cases hdpi : dpi ∈ ALLOWED_EXPORT_DPI
      · by_cases ha : env.artifactExists = true
        · right; left
          simp [ensure_export_tiff, hsg, hres, hdpi, ha]
        · by_cases hl : env.lockFree = true
          · cases hde : env.drawError with
            | some e =>
              right; right; right; left
              simp [ensure_export_tiff, hsg, hres, hdpi, ha, hl, hde]
            | none =>
              right; right; right; left
              simp [ensure_export_tiff, hsg, hres, hdpi, ha, hl, hde]
          · right; left
            simp [ensure_export_tiff, hsg, hres, hdpi, ha, hl]
      · right; right; right; right
        simp [ensure_export_tiff, hsg, hres, hdpi]

/-! ## Claim C8 -/

/-- Claim C8: releasing a lock (per-artifact _FileLock or global prune
lock) clears the file descriptor and unconditionally attempts to delete
the lock file, treating an already-missing lock file as success; the
release routines never raise; release happens on every exit path from the
protected region — cache-hit return, render success, render failure, and
every prune path — and releasing an already-released handle is a no-op. -/
theorem C8_lock_release :
    (∀ (o : Bool) (s : FileLockSt), (fileLockRelease o s).fd = none)
  ∧ (∀ (o : Bool) (s : FileLockSt), s.fileExists = false →
       fileLockRelease o s = ⟨none, false⟩)
  ∧ (∀ s : FileLockSt, fileLockRelease false s = ⟨none, false⟩)
  ∧ (∀ o : Bool, fileLockRelease o ⟨none, false⟩ = ⟨none, false⟩)
  ∧ (∀ (o : Bool) (s : FileLockSt), (releasePruneLock o s).fd = none)
  ∧ (∀ (o : Bool) (s : FileLockSt), s.fileExists = false →
       releasePruneLock o s = ⟨none, false⟩)
  ∧ (∀ s : FileLockSt, releasePruneLock false s = ⟨none, false⟩)
  ∧ (∀ (gene : String) (library : Option String) (env : EnvModel),
       Ev.lockAcquire ∈ (ensure_plot_png gene library env).2 →
       Ev.lockRelease ∈ (ensure_plot_png gene library env).2)
  ∧ (∀ (gene : String) (dpi : Int) (library : Option String)
        (env : EnvModel),
       Ev.lockAcquire ∈ (ensure_export_tiff gene dpi library env).2 →
       Ev.lockRelease ∈ (ensure_export_tiff gene dpi library env).2)
  ∧ (∀ (maxBytes : Nat) (fs0 fs1 : FS) (keepNewest : Nat) (lockFree : Bool)
        (beh : Nat → DelOutcome),
       (prune_cache_if_needed maxBytes fs0 fs1 keepNewest lockFree
          beh).lockReleased =
       (prune_cache_if_needed maxBytes fs0 fs1 keepNewest lockFree
          beh).lockAcquired) := by
  refine ⟨fun o s => rfl,
    ?_, ?_, ?_, fun o s => rfl, ?_, ?_, ?_, ?_, ?_⟩
  · intro o s h
    simp [fileLockRelease, unlinkMissingOk, h]
  · intro s
    cases hs : s.fileExists <;>
      simp [fileLockRelease, unlinkMissingOk, hs]
  · intro o
    simp [fileLockRelease, unlinkMissingOk]
  · intro o s h
    simp [releasePruneLock, unlinkMissingOk, h]
  · intro s
    cases hs : s.fileExists <;>
      simp [releasePruneLock, unlinkMissingOk, hs]
  · intro gene library env h
    have hnoacq : Ev.lockAcquire ∉ (resolveLibrary library env).2 := by
      rcases resolveLibrary_events library env with h2 | h2 <;>
        rw [h2] <;> simp
    rcases ensure_plot_png_trace gene library env with
      h2 | h2 | h2 | h2 | h2
    · rw [h2] at h
      simp at h
    · rw [h2] at h
      simp at h
      exact absurd h hnoacq
    · rw [h2]
      simp
    · rw [h2]
      simp
    · rw [h2] at h
      exact absurd h hnoacq
  · intro gene dpi library env h
    have hnoacq : Ev.lockAcquire ∉ (resolveLibrary library env).2 := by
      rcases resolveLibrary_events library env with h2 | h2 <;>
        rw [h2] <;> simp
    rcases ensure_export_tiff_trace gene dpi library env with
      h2 | h2 | h2 | h2 | h2
    · rw [h2] at h
      simp at h
    · rw [h2] at h
      simp at h
      exact absurd h hnoacq
    · rw [h2]
      simp
    · rw [h2]
      simp
    · rw [h2] at h
      exact absurd h hnoacq
  · intro maxBytes fs0 fs1 keepNewest lockFree beh
    by_cases h0 : totalSize fs0 ≤ maxBytes
    · rw [prune_fast_path maxBytes fs0 fs1 keepNewest lockFree beh h0]
    · cases lockFree with
      | false => rw [prune_lock_busy maxBytes fs0 fs1 keepNewest beh h0]
      | true =>
        by_cases h1 : totalSize fs1 ≤ maxBytes
        · rw [prune_recheck_under maxBytes fs0 fs1 keepNewest beh h0 h1]
        · rw [prune_main maxBytes fs0 fs1 keepNewest beh h0 h1]

/-- Witness for C8 at concrete inputs: a successful render run acquires
and then releases the per-artifact lock, and a released handle state is
reproduced by a second release. -/
theorem C8_lock_release_witness :
    Ev.lockRelease ∈ (ensure_plot_png "geneX" (some "sham")
      ⟨none, false, [], false, true, none⟩).2
  ∧ fileLockRelease true ⟨none, false⟩ = ⟨none, false⟩ :=
  ⟨C8_lock_release.2.2.2.2.2.2.2.1 "geneX" (some "sham")
      ⟨none, false, [], false, true, none⟩ (by decide),
   C8_lock_release.2.2.2.1 true⟩

/-! ### Invariant preservation for the interleaved ensure skeleton -/

/-- Replacing one program counter with a non-holding value, possibly also
rewriting the lock flag, preserves the safety invariant when it holds for
the rest. -/
theorem invA_update_plain {n : Nat} (s : SysState n) (i : Fin n) (v : PC)
    (hv : ¬ holds v) (h : InvA s) :
    InvA { s with pcs := Function.update s.pcs i v } := by
  obtain ⟨h1, h2, h3⟩ := h
  refine ⟨?_, ?_, ?_⟩
  · intro j hj
    by_cases hji : j = i
    · subst hji
      simp only [Function.update_same] at hj
      exact absurd hj hv
    · simp only [Function.update_noteq hji] at hj
      exact h1 j hj
  · intro j k hj hk
    by_cases hji : j = i
    · subst hji
      simp only [Function.update_same] at hj
      exact absurd hj hv
    · by_cases hki : k = i
      · subst hki
        simp only [Function.update_same] at hk
        exact absurd hk hv
      · simp only [Function.update_noteq hji] at hj
        simp only [Function.update_noteq hki] at hk
        exact h2 j k hj hk
  · intro j hj
    by_cases hji : j = i
    · subst hji
      simp only [Function.update_same] at hj
      exact absurd (Or.inr hj) hv
    · simp only [Function.update_noteq hji] at hj
      exact h3 j hj

/-- A successful O_EXCL creation while the lock file is absent: the
acquirer becomes the unique holder. -/
theorem invA_acquire {n : Nat} (s : SysState n) (i : Fin n)
    (hlock : s.lock = false) (h : InvA s) :
    InvA { s with lock := true,
                  pcs := Function.update s.pcs i PC.recheck } := by
  obtain ⟨h1, h2, h3⟩ := h
  have hnoh : ∀ j, ¬ holds (s.pcs j) := by
    intro j hj
    rw [h1 j hj] at hlock
    cases hlock
  refine ⟨fun j _ => rfl, ?_, ?_⟩
  · intro j k hj hk
    by_cases hji : j = i
    · by_cases hki : k = i
      · rw [hji, hki]
      · simp only [Function.update_noteq hki] at hk
        exact absurd hk (hnoh k)
    · simp only [Function.update_noteq hji] at hj
      exact absurd hj (hnoh j)
  · intro j hj
    by_cases hji : j = i
    · subst hji
      simp only [Function.update_same] at hj
      cases hj
    · simp only [Function.update_noteq hji] at hj
      exact absurd (Or.inr hj) (hnoh j)

/-- A holder leaving the critical section (recheck hit, render success or
render failure): the lock is dropped and no holder remains. -/
theorem invA_exit {n : Nat} (s : SysState n) (i : Fin n) (v : PC) (a : Bool)
    (hv : ¬ holds v) (hi : holds (s.pcs i)) (h : InvA s) :
    InvA { s with lock := false, artifact := a,
                  pcs := Function.update s.pcs i v } := by
  obtain ⟨h1, h2, h3⟩ := h
  have honly : ∀ j, holds (s.pcs j) → j = i := fun j hj => h2 j i hj hi
  refine ⟨?_, ?_, ?_⟩
  · intro j hj
    by_cases hji : j = i
    · subst hji
      simp only [Function.update_same] at hj
      exact absurd hj hv
    · simp only [Function.update_noteq hji] at hj
      exact absurd (honly j hj) hji
  · intro j k hj hk
    by_cases hji : j = i
    · subst hji
      simp only [Function.update_same] at hj
      exact absurd hj hv
    · simp only [Function.update_noteq hji] at hj
      exact absurd (honly j hj) hji
  · intro j hj
    by_cases hji : j = i
    · subst hji
      simp only [Function.update_same] at hj
      exact absurd (Or.inr hj) hv
    · simp only [Function.update_noteq hji] at hj
      exact absurd (honly j (Or.inr hj)) hji

/-- The unique holder starts the external render while the artifact is
still missing. -/
theorem invA_render_start {n : Nat} (s : SysState n) (i : Fin n)
    (hi : s.pcs i = PC.recheck) (ha : s.artifact = false) (h : InvA s) :
    InvA { s with renders := s.renders + 1,
                  pcs := Function.update s.pcs i PC.renderBusy } := by
  obtain ⟨h1, h2, h3⟩ := h
  have honly : ∀ j, holds (s.pcs j) → j = i :=
    fun j hj => h2 j i hj (Or.inl hi)
  refine ⟨?_, ?_, ?_⟩
  · intro j hj
    by_cases hji : j = i
    · exact h1 i (Or.inl hi)
    · simp only [Function.update_noteq hji] at hj
      exact h1 j hj
  · intro j k hj hk
    by_cases hji : j = i
    · by_cases hki : k = i
      · rw [hji, hki]
      · simp only [Function.update_noteq hki] at hk
        exact absurd (honly k hk) hki
    · simp only [Function.update_noteq hji] at hj
      exact absurd (honly j hj) hji
  · intro j hj
    exact ha

/-- Every step of every schedule preserves the safety invariant. -/
theorem invA_step {n : Nat} (B : Fin n → Nat) (s : SysState n)
    (m : Fin n × Bool) (h : InvA s) : InvA (step B s m) := by
  rcases m with ⟨i, ok⟩
  cases hpc : s.pcs i with
  | start =>
    simp only [step, hpc]
    by_cases ha : s.artifact = true
    · rw [if_pos ha]
      exact invA_update_plain s i _
        (by rintro (hv | hv) <;> cases hv) h
    · rw [if_neg ha]
      exact invA_update_plain s i _
        (by rintro (hv | hv) <;> cases hv) h
  | waiting b =>
    simp only [step, hpc]
    by_cases hl : s.lock = false
    · rw [if_pos hl]
      exact invA_acquire s i hl h
    · rw [if_neg hl]
      by_cases hb : b = 0
      · rw [if_pos hb]
        exact invA_update_plain s i _
          (by rintro (hv | hv) <;> cases hv) h
      · rw [if_neg hb]
        exact invA_update_plain s i _
          (by rintro (hv | hv) <;> cases hv) h
  | recheck =>
    simp only [step, hpc]
    by_cases ha : s.artifact = true
    · rw [if_pos ha]
      exact invA_exit s i _ s.artifact
        (by rintro (hv | hv) <;> cases hv) (Or.inl hpc) h
    · rw [if_neg ha]
      have ha2 : s.artifact = false := by
        cases hb2 : s.artifact with
        | false => rfl
        | true => exact absurd hb2 ha
      exact invA_render_start s i hpc ha2 h
  | renderBusy =>
    simp only [step, hpc]
    by_cases hok : ok = true
    · rw [if_pos hok]
      exact invA_exit s i _ true
        (by rintro (hv | hv) <;> cases hv) (Or.inr hpc) h
    · rw [if_neg hok]
      exact invA_exit s i _ s.artifact
        (by rintro (hv | hv) <;> cases hv) (Or.inr hpc) h
  | done r =>
    simp only [step, hpc]
    exact h

/-- Replacing one non-rendering program counter with a value that is not
renderBusy, not a fresh completion and not a failure completion — with
lock flag arbitrary and artifact and render count untouched — preserves
the success invariant. -/
theorem invBx_update_plain {n : Nat} (s : SysState n) (i : Fin n) (v : PC)
    (lk : Bool) (hvf : v ≠ PC.done Res.fresh) (hve : v ≠ PC.done Res.err)
    (hpci : s.pcs i ≠ PC.renderBusy) (h : InvBx s) :
    InvBx { s with lock := lk, pcs := Function.update s.pcs i v } := by
  obtain ⟨hr1, hr2, hfa, hne, hfu⟩ := h
  have hmem : ∀ j w, Function.update s.pcs i v j = w → w ≠ v → s.pcs j = w := by
    intro j w hj hw
    by_cases hji : j = i
    · subst hji
      simp only [Function.update_same] at hj
      exact absurd hj.symm hw
    · simp only [Function.update_noteq hji] at hj
      exact hj
  refine ⟨hr1, ?_, ?_, ?_, ?_⟩
  · intro hr
    rcases hr2 hr with hart | ⟨j, hj⟩
    · exact Or.inl hart
    · refine Or.inr ⟨j, ?_⟩
      have hji : j ≠ i := by
        intro hji
        rw [hji] at hj
        exact hpci hj
      simp only [Function.update_noteq hji]
      exact hj
  · intro j hj
    exact hfa j (hmem j _ hj (fun hvv => hvf hvv.symm))
  · intro j hj
    exact hne j (hmem j _ hj (fun hvv => hve hvv.symm))
  · intro j k hj hk
    exact hfu j k (hmem j _ hj (fun hvv => hvf hvv.symm))
      (hmem k _ hk (fun hvv => hvf hvv.symm))

/-- The render-invocation step: the unique holder moves from the recheck
to renderBusy; the counter can only move from zero to one. -/
theorem invBx_render_start {n : Nat} (s : SysState n) (i : Fin n)
    (hi : s.pcs i = PC.recheck) (ha : s.artifact = false)
    (hA : InvA s) (h : InvBx s) :
    InvBx { s with renders := s.renders + 1,
                   pcs := Function.update s.pcs i PC.renderBusy } := by
  obtain ⟨h1, h2, h3⟩ := hA
  obtain ⟨hr1, hr2, hfa, hne, hfu⟩ := h
  have hzero : s.renders = 0 := by
    rcases Nat.lt_or_ge s.renders 1 with hlt | hge
    · omega
    · exfalso
      have hr : s.renders = 1 := by omega
      rcases hr2 hr with hart | ⟨j, hj⟩
      · rw [hart] at ha
        cases ha
      · have := h2 j i (Or.inr hj) (Or.inl hi)
        rw [this, hi] at hj
        cases hj
  have hnofresh : ∀ j, s.pcs j ≠ PC.done Res.fresh := by
    intro j hj
    rw [hfa j hj] at ha
    cases ha
  refine ⟨by simp [hzero], ?_, ?_, ?_, ?_⟩
  · intro _
    refine Or.inr ⟨i, ?_⟩
    simp only [Function.update_same]
  · intro j hj
    by_cases hji : j = i
    · subst hji
      simp only [Function.update_same] at hj
      cases hj
    · simp only [Function.update_noteq hji] at hj
      exact absurd hj (hnofresh j)
  · intro j hj
    by_cases hji : j = i
    · subst hji
      simp only [Function.update_same] at hj
      cases hj
    · simp only [Function.update_noteq hji] at hj
      exact hne j hj
  · intro j k hj hk
    by_cases hji : j = i
    · subst hji
      simp only [Function.update_same] at hj
      cases hj
    · simp only [Function.update_noteq hji] at hj
      exact absurd hj (hnofresh j)

/-- The successful render-completion step: the artifact appears, the lock
is dropped, and the renderer is the unique fresh completion. -/
theorem invBx_render_done {n : Nat} (s : SysState n) (i : Fin n)
    (hi : s.pcs i = PC.renderBusy) (hA : InvA s) (h : InvBx s) :
    InvBx { s with artifact := true, lock := false,
                   pcs := Function.update s.pcs i (PC.done Res.fresh) } := by
  obtain ⟨h1, h2, h3⟩ := hA
  obtain ⟨hr1, hr2, hfa, hne, hfu⟩ := h
  have ha : s.artifact = false := h3 i hi
  have hnofresh : ∀ j, s.pcs j ≠ PC.done Res.fresh := by
    intro j hj
    rw [hfa j hj] at ha
    cases ha
  refine ⟨hr1, fun _ => Or.inl rfl, fun j _ => rfl, ?_, ?_⟩
  · intro j hj
    by_cases hji : j = i
    · subst hji
      simp only [Function.update_same] at hj
      cases hj
    · simp only [Function.update_noteq hji] at hj
      exact hne j hj
  · intro j k hj hk
    by_cases hji : j = i
    · by_cases hki : k = i
      · rw [hji, hki]
      · simp only [Function.update_noteq hki] at hk
        exact absurd hk (hnofresh k)
    · simp only [Function.update_noteq hji] at hj
      exact absurd hj (hnofresh j)

/-- Every step whose render oracle is success preserves the full
invariant. -/
theorem invB_step {n : Nat} (B : Fin n → Nat) (s : SysState n)
    (m : Fin n × Bool) (hok : m.2 = true) (h : InvB s) :
    InvB (step B s m) := by
  obtain ⟨hA, hX⟩ := h
  rcases m with ⟨i, ok⟩
  have hok2 : ok = true := hok
  subst hok2
  refine ⟨invA_step B s (i, true) hA, ?_⟩
  cases hpc : s.pcs i with
  | start =>
    simp only [step, hpc]
    by_cases ha : s.artifact = true
    · rw [if_pos ha]
      exact invBx_update_plain s i _ s.lock (by intro hv; cases hv)
        (by intro hv; cases hv) (by rw [hpc]; intro hv; cases hv) hX
    · rw [if_neg ha]
      exact invBx_update_plain s i _ s.lock (by intro hv; cases hv)
        (by intro hv; cases hv) (by rw [hpc]; intro hv; cases hv) hX
  | waiting b =>
    simp only [step, hpc]
    by_cases hl : s.lock = false
    · rw [if_pos hl]
      exact invBx_update_plain s i _ true (by intro hv; cases hv)
        (by intro hv; cases hv) (by rw [hpc]; intro hv; cases hv) hX
    · rw [if_neg hl]
      by_cases hb : b = 0
      · rw [if_pos hb]
        exact invBx_update_plain s i _ s.lock (by intro hv; cases hv)
          (by intro hv; cases hv) (by rw [hpc]; intro hv; cases hv) hX
      · rw [if_neg hb]
        exact invBx_update_plain s i _ s.lock (by intro hv; cases hv)
          (by intro hv; cases hv) (by rw [hpc]; intro hv; cases hv) hX
  | recheck =>
    simp only [step, hpc]
    by_cases ha : s.artifact = true
    · rw [if_pos ha]
      exact invBx_update_plain s i _ false (by intro hv; cases hv)
        (by intro hv; cases hv) (by rw [hpc]; intro hv; cases hv) hX
    · rw [if_neg ha]
      have ha2 : s.artifact = false := by
        cases hb2 : s.artifact with
        | false => rfl
        | true => exact absurd hb2 ha
      exact invBx_render_start s i hpc ha2 hA hX
  | renderBusy =>
    simp only [step, hpc, if_pos rfl]
    exact invBx_render_done s i hpc hA hX
  | done r =>
    simp only [step, hpc]
    exact hX

/-- The initial state satisfies the safety invariant. -/
theorem invA_init (n : Nat) : InvA (initState n) := by
  refine ⟨?_, ?_, ?_⟩
  · intro i hi
    rcases hi with hi | hi <;> cases hi
  · intro i j hi _
    rcases hi with hi | hi <;> cases hi
  · intro i hi
    cases hi

/-- The initial state satisfies the full invariant. -/
theorem invB_init (n : Nat) : InvB (initState n) := by
  refine ⟨invA_init n, ?_, ?_, ?_, ?_, ?_⟩
  · exact Nat.zero_le 1
  · intro h
    cases h
  · intro i hi
    cases hi
  · intro i hi
    cases hi
  · intro i j hi _
    cases hi

/-- The safety invariant holds after any schedule. -/
theorem invA_exec {n : Nat} (B : Fin n → Nat)
    (sched : List (Fin n × Bool)) :
    ∀ s : SysState n, InvA s → InvA (exec B s sched) := by
  induction sched with
  | nil => intro s h; exact h
  | cons p rest ih =>
    intro s h
    exact ih (step B s p) (invA_step B s p h)

/-- The full invariant holds after any success schedule. -/
theorem invB_exec {n : Nat} (B : Fin n → Nat)
    (sched : List (Fin n × Bool)) (hsched : AllOk sched) :
    ∀ s : SysState n, InvB s → InvB (exec B s sched) := by
  induction sched with
  | nil => intro s h; exact h
  | cons p rest ih =>
    intro s h
    have hp : p.2 = true := hsched p (List.mem_cons_self p rest)
    have hrest : AllOk rest := fun q hq =>
      hsched q (List.mem_cons_of_mem p hq)
    exact ih hrest (step B s p) (invB_step B s p hp h)

/-! ## Claim C1 -/

/-- Claim C1: for any number n of concurrent ensure calls on one fixed
artifact identity (the lock-file skeleton shared by ensure_plot_png,
ensure_export_pdf and ensure_export_tiff), under every interleaving at
most one call is ever inside the external render at a time — a second
concurrent render of the same identity never happens; and on every
schedule where renders succeed, the external render is invoked at most
once in total, at most one call returns a fresh render, and every
completed call reports a fresh render, a cache hit, or a lock timeout. -/
theorem C1_concurrent_ensure_render_once (n : Nat) (B : Fin n → Nat)
    (sched : List (Fin n × Bool)) :
    (∀ i j, (exec B (initState n) sched).pcs i = PC.renderBusy →
       (exec B (initState n) sched).pcs j = PC.renderBusy → i = j)
  ∧ (AllOk sched →
       (exec B (initState n) sched).renders ≤ 1
     ∧ (∀ i j, (exec B (initState n) sched).pcs i = PC.done Res.fresh →
          (exec B (initState n) sched).pcs j = PC.done Res.fresh → i = j)
     ∧ (∀ i r, (exec B (initState n) sched).pcs i = PC.done r →
          r = Res.fresh ∨ r = Res.hit ∨ r = Res.timeout)) := by
  have hA := invA_exec B sched (initState n) (invA_init n)
  refine ⟨fun i j hi hj => hA.2.1 i j (Or.inr hi) (Or.inr hj),
    fun hok => ?_⟩
  obtain ⟨_, hr1, _, _, hne, hfu⟩ :=
    invB_exec B sched hok (initState n) (invB_init n)
  refine ⟨hr1, hfu, ?_⟩
  intro i r hi
  cases r with
  | err => exact absurd hi (hne i)
  | fresh => exact Or.inl rfl
  | hit => exact Or.inr (Or.inl rfl)
  | timeout => exact Or.inr (Or.inr rfl)

/-- Witness for C1: two contexts race for the same artifact; the first
acquires the lock and renders, the second polls, reacquires after the
release and observes the artifact — a cache hit; the render ran once. -/
theorem C1_concurrent_ensure_render_once_witness :
    (exec (fun _ => 2) (initState 2)
        [((0 : Fin 2), true), ((1 : Fin 2), true), ((0 : Fin 2), true),
         ((1 : Fin 2), true), ((0 : Fin 2), true), ((0 : Fin 2), true),
         ((1 : Fin 2), true), ((1 : Fin 2), true)]).renders ≤ 1
  ∧ (∀ i r, (exec (fun _ => 2) (initState 2)
        [((0 : Fin 2), true), ((1 : Fin 2), true), ((0 : Fin 2), true),
         ((1 : Fin 2), true), ((0 : Fin 2), true), ((0 : Fin 2), true),
         ((1 : Fin 2), true), ((1 : Fin 2), true)]).pcs i = PC.done r →
      r = Res.fresh ∨ r = Res.hit ∨ r = Res.timeout) := by
  have h := (C1_concurrent_ensure_render_once 2 (fun _ => 2)
    [((0 : Fin 2), true), ((1 : Fin 2), true), ((0 : Fin 2), true),
     ((1 : Fin 2), true), ((0 : Fin 2), true), ((0 : Fin 2), true),
     ((1 : Fin 2), true), ((1 : Fin 2), true)]).2 (by decide)
  exact ⟨h.1, h.2.2⟩

end App
